import Mathlib

/-!
Verification of the octonion VDF / STARK prototype.

The octonion algebra, the Goldilocks trace generator (`run_vdf_grind`) and
its AIR constraint are embedded from `src/stark_vdf.rs`; the prover and
verifier (`StarkProver::prove`, `StarkVerifier::verify`) together with the
transition constraint are embedded from `src/stark.rs`.  The repository's
`vdf` module referenced by `stark.rs` (`algebraic_hash_oracle`,
`evaluate_vdf`, the field-element octonion) is absent from the sources, so
those pieces are modelled from the spec (sections 4.3, 4.4 and 6) and are
marked as such.
-/

set_option maxRecDepth 4000
set_option linter.unusedSectionVars false

namespace Crypto

/-- An octonion: an ordered 8-tuple of ring elements (`Octonion<F>(pub [F; 8])`
in `stark_vdf.rs`, `pub coeffs: [u64; 8]` in `vdf.rs`).  The scalar ring is a
parameter, as the spec's section 4.1 requires: the same multiplication code
serves the Goldilocks prime field and the wrapping 64-bit ring. -/
@[ext]
structure Octo (R : Type) where
  x0 : R
  x1 : R
  x2 : R
  x3 : R
  x4 : R
  x5 : R
  x6 : R
  x7 : R
deriving DecidableEq

namespace Octo

variable {R : Type} [CommRing R]

/-- `Octonion::zero`: all coordinates zero. -/
def zero : Octo R := ⟨0, 0, 0, 0, 0, 0, 0, 0⟩

/-- Coordinate-wise addition (`Octonion::add` / `impl Add`). -/
def add (a b : Octo R) : Octo R :=
  ⟨a.x0 + b.x0, a.x1 + b.x1, a.x2 + b.x2, a.x3 + b.x3,
   a.x4 + b.x4, a.x5 + b.x5, a.x6 + b.x6, a.x7 + b.x7⟩

/-- Coordinate-wise subtraction (`Octonion::sub`; `vdf.rs` writes it as a
manual loop of `wrapping_sub`). -/
def sub (a b : Octo R) : Octo R :=
  ⟨a.x0 - b.x0, a.x1 - b.x1, a.x2 - b.x2, a.x3 - b.x3,
   a.x4 - b.x4, a.x5 - b.x5, a.x6 - b.x6, a.x7 - b.x7⟩

/-- Cayley-Dickson / Fano-plane multiplication, transcribed from
`Octonion::mul` in `stark_vdf.rs` (the `impl Mul` in `vdf.rs` is the same
table over the wrapping 64-bit ring). -/
def mul (a b : Octo R) : Octo R :=
  ⟨a.x0 * b.x0 - a.x1 * b.x1 - a.x2 * b.x2 - a.x3 * b.x3
     - a.x4 * b.x4 - a.x5 * b.x5 - a.x6 * b.x6 - a.x7 * b.x7,
   a.x0 * b.x1 + a.x1 * b.x0 + a.x2 * b.x3 - a.x3 * b.x2
     + a.x4 * b.x5 - a.x5 * b.x4 - a.x6 * b.x7 + a.x7 * b.x6,
   a.x0 * b.x2 - a.x1 * b.x3 + a.x2 * b.x0 + a.x3 * b.x1
     + a.x4 * b.x6 + a.x5 * b.x7 - a.x6 * b.x4 - a.x7 * b.x5,
   a.x0 * b.x3 + a.x1 * b.x2 - a.x2 * b.x1 + a.x3 * b.x0
     + a.x4 * b.x7 - a.x5 * b.x6 + a.x6 * b.x5 - a.x7 * b.x4,
   a.x0 * b.x4 - a.x1 * b.x5 - a.x2 * b.x6 - a.x3 * b.x7
     + a.x4 * b.x0 + a.x5 * b.x1 + a.x6 * b.x2 + a.x7 * b.x3,
   a.x0 * b.x5 + a.x1 * b.x4 - a.x2 * b.x7 + a.x3 * b.x6
     - a.x4 * b.x1 + a.x5 * b.x0 - a.x6 * b.x3 + a.x7 * b.x2,
   a.x0 * b.x6 + a.x1 * b.x7 + a.x2 * b.x4 - a.x3 * b.x5
     - a.x4 * b.x2 + a.x5 * b.x3 + a.x6 * b.x0 - a.x7 * b.x1,
   a.x0 * b.x7 - a.x1 * b.x6 + a.x2 * b.x5 + a.x3 * b.x4
     - a.x4 * b.x3 - a.x5 * b.x2 + a.x6 * b.x1 + a.x7 * b.x0⟩

/-- The associator `[a,b,d] = (ab)d - a(bd)` (`Octonion::associator` in
`stark_vdf.rs`, free function `associator` in `vdf.rs`). -/
def associator (a b d : Octo R) : Octo R :=
  sub (mul (mul a b) d) (mul a (mul b d))

/-- `Octonion::is_zero`: every coordinate equals zero. -/
def isZero [DecidableEq R] (a : Octo R) : Bool :=
  decide (a.x0 = 0) && decide (a.x1 = 0) && decide (a.x2 = 0) &&
  decide (a.x3 = 0) && decide (a.x4 = 0) && decide (a.x5 = 0) &&
  decide (a.x6 = 0) && decide (a.x7 = 0)

end Octo

/-! ## The Goldilocks instantiation used by `stark_vdf.rs` -/

/-- The Goldilocks prime `2^64 - 2^32 + 1` (`p3_goldilocks::Goldilocks`). -/
def goldP : ℕ := 18446744069414584321

/-- The Goldilocks field. -/
abbrev GF := ZMod goldP

/-- The nonlinear map applied per coordinate inside `run_vdf_grind` and
`OctoStarkAir::eval` in `stark_vdf.rs`: `x2 = x*x; x4 = x2*x2; x4*x2*x`. -/
def glPow7 (v : GF) : GF :=
  let v2 := v * v
  let v4 := v2 * v2
  v4 * v2 * v

/-- The hash layer of `stark_vdf.rs` (lines 145-151 of `run_vdf_grind` and
lines 112-118 of `OctoStarkAir::eval`): the seventh power applied to each
coordinate, and nothing else. -/
def glH (x : Octo GF) : Octo GF :=
  ⟨glPow7 x.x0, glPow7 x.x1, glPow7 x.x2, glPow7 x.x3,
   glPow7 x.x4, glPow7 x.x5, glPow7 x.x6, glPow7 x.x7⟩

/-- One step of the `run_vdf_grind` loop body:
`Z' = Z*Z + C + [Z, C, H(Z)]`. -/
def glStep (c z : Octo GF) : Octo GF :=
  Octo.add (Octo.add (Octo.mul z z) c) (Octo.associator z c (glH z))

/-- `run_vdf_grind(seed, c, t)`: push the current state, step, repeat `t`
times, then push the final state; the returned history has `t+1` entries. -/
def runVdfGrind (seed c : Octo GF) : ℕ → List (Octo GF)
  | 0 => [seed]
  | t + 1 => seed :: runVdfGrind (glStep c seed) c t

/-- The transition constraint enforced by `OctoStarkAir::eval` in
`stark_vdf.rs`: `next - expected_next(local)` where `expected_next`
is the grind step (same `x^7` hash layer, squaring and associator). -/
def glTransitionConstraint (zCur zNext c : Octo GF) : Octo GF :=
  Octo.sub zNext (glStep c zCur)

/-! ## The `stark.rs` prover/verifier

`stark.rs` works over `vdf::Octonion` with field-element coordinates and
calls `vdf::algebraic_hash_oracle`; that version of the `vdf` module is not
among the sources, so the oracle and the evaluator are modelled from the
spec.  Everything here is generic over the scalar ring and over the oracle's
round constants `k`; the spec fixes the constants only up to a per-index
multiplier, and no theorem below depends on their value. -/

namespace Stark

variable {R : Type} [CommRing R] [DecidableEq R]

/-- Modelled from the spec (section 4.3): `vdf::algebraic_hash_oracle` is
referenced by `stark.rs` but missing from the sources.  Nonlinear layer
`y_i = x_i^7`, then diffusion `s = Σ y_i`, `out_i = y_i + s + k_i` with
fixed round constants `k`. -/
def hOracle (k x : Octo R) : Octo R :=
  let y : Octo R :=
    ⟨x.x0 ^ 7, x.x1 ^ 7, x.x2 ^ 7, x.x3 ^ 7, x.x4 ^ 7, x.x5 ^ 7, x.x6 ^ 7, x.x7 ^ 7⟩
  let s := y.x0 + y.x1 + y.x2 + y.x3 + y.x4 + y.x5 + y.x6 + y.x7
  ⟨y.x0 + s + k.x0, y.x1 + s + k.x1, y.x2 + s + k.x2, y.x3 + s + k.x3,
   y.x4 + s + k.x4, y.x5 + s + k.x5, y.x6 + s + k.x6, y.x7 + s + k.x7⟩

/-- The expected next state reconstructed inside
`OctoStarkAir::transition_constraint` in `stark.rs`:
`sq + c + associator(z, c, H(z))`; by the spec's section 4.5 this is also
the evaluator's one-step recurrence. -/
def expectedNext (k c z : Octo R) : Octo R :=
  Octo.add (Octo.add (Octo.mul z z) c) (Octo.associator z c (hOracle k z))

/-- `OctoStarkAir::transition_constraint` in `stark.rs`:
`z_next - expected_next(z_current)`. -/
def transitionConstraint (k zCur zNext c : Octo R) : Octo R :=
  Octo.sub zNext (expectedNext k c zCur)

/-- Modelled from the spec (sections 4.4 and 6): `vdf::evaluate_vdf` called
by `main.rs` is missing from the sources.  The trace of `T` steps of
`Z' = Z*Z + C + [Z, C, H(Z)]`, all `T+1` states in order. -/
def evalTrace (k c : Octo R) : Octo R → ℕ → List (Octo R)
  | z, 0 => [z]
  | z, t + 1 => z :: evalTrace k c (expectedNext k c z) t

/-- `PublicInputs` from `stark.rs`. -/
structure PublicInputs (R : Type) where
  z0 : Octo R
  c : Octo R
  zT : Octo R
  tIterations : ℕ
deriving DecidableEq

/-- A 32-byte digest `[u8; 32]`, modelled as a list of bytes. -/
abbrev Digest : Type := List ℕ

/-- `TraceQuery` from `stark.rs`. -/
structure TraceQuery (R : Type) where
  step : ℕ
  zCurrent : Octo R
  zNext : Octo R
  merkleAuthPath : List Digest
deriving DecidableEq

/-- `StarkProof` from `stark.rs`. -/
structure StarkProof (R : Type) where
  traceMerkleRoot : Digest
  queriedRows : List (TraceQuery R)
  friProofValid : Bool
deriving DecidableEq

/-- The simulated Merkle root `[0xAA; 32]`. -/
def mockRoot : Digest := List.replicate 32 0xAA

/-- A mock Merkle path node `[0xCC; 32]`. -/
def mockPathNode : Digest := List.replicate 32 0xCC

/-- One update of the prover's internal counter:
`prng = prng.wrapping_mul(6364136223846793005).wrapping_add(1)`. -/
def lcgNext (p : ℕ) : ℕ := (p * 6364136223846793005 + 1) % 2 ^ 64

/-- The prover's fixed initial counter `0x1337_CAFE_BEEF_DEAD`. -/
def prngSeed : ℕ := 0x1337CAFEBEEFDEAD

/-- The query-sampling loop of `StarkProver::prove`: each iteration advances
the counter and takes `step = prng % t`.  In Rust `% 0` is a panic, embedded
here as `none`; `trace[step]` and `trace[step + 1]` are in bounds whenever
the trace has length `t + 1`, so `getD` agrees with Rust indexing. -/
def sampleQueries (trace : List (Octo R)) (t : ℕ) : ℕ → ℕ → Option (List (TraceQuery R))
  | _, 0 => some []
  | p, n + 1 =>
    if t = 0 then none
    else
      let p1 := lcgNext p
      let stp := p1 % t
      match sampleQueries trace t p1 n with
      | none => none
      | some rest =>
        some ({ step := stp, zCurrent := trace.getD stp Octo.zero,
                zNext := trace.getD (stp + 1) Octo.zero,
                merkleAuthPath := List.replicate 5 mockPathNode } :: rest)

/-- `StarkProver::prove`.  The two `assert!`s (trace length, per-step
self-check) and the mod-by-zero panic are embedded as `none`. -/
def prove (k : Octo R) (trace : List (Octo R)) (pubInputs : PublicInputs R)
    (securityLevelQueries : ℕ) : Option (StarkProof R) :=
  let t := pubInputs.tIterations
  if trace.length = t + 1 then
    if (List.range t).all (fun i =>
        (transitionConstraint k (trace.getD i Octo.zero) (trace.getD (i + 1) Octo.zero)
          pubInputs.c).isZero) then
      match sampleQueries trace t prngSeed securityLevelQueries with
      | none => none
      | some qs =>
        some { traceMerkleRoot := mockRoot, queriedRows := qs, friProofValid := true }
    else none
  else none

/-- `StarkVerifier::verify`: the boundary check is the stub
`let valid_boundaries = true;`, then every queried row's transition
constraint must be zero, then the FRI flag must be set. -/
def verify (k : Octo R) (proof : StarkProof R) (pubInputs : PublicInputs R) : Bool :=
  let validBoundaries := true
  if !validBoundaries then false
  else if !(proof.queriedRows.all (fun q =>
      (transitionConstraint k q.zCurrent q.zNext pubInputs.c).isZero)) then false
  else if !proof.friProofValid then false
  else true

/-- The sampled step indices of an optional proof, for stating that the
prover's query schedule is input-independent. -/
def proofSteps (o : Option (StarkProof R)) : List ℕ :=
  match o with
  | none => []
  | some pr => pr.queriedRows.map (fun q => q.step)

/-- The pure step-index schedule of the sampling loop: it depends only on
`t`, the counter and the query count, never on the trace. -/
def stepSeq (t : ℕ) : ℕ → ℕ → List ℕ
  | _, 0 => []
  | p, n + 1 => lcgNext p % t :: stepSeq t (lcgNext p) n

/-- The honest public inputs for a trace evaluated from `z0`, `c`, `T`:
the claimed final state is the trace's last entry. -/
def honestPub (k c z0 : Octo R) (t : ℕ) : PublicInputs R :=
  { z0 := z0, c := c, zT := (evalTrace k c z0 t).getD t Octo.zero, tIterations := t }

end Stark

/-! ## Concrete values for witnesses and counterexamples -/

/-- Modelled from the spec (section 4.3): round constants derived from a
simple per-index multiplier; the multiplier `7` is one concrete choice (all
theorems are proved for arbitrary constants). -/
def kGold : Octo GF := ⟨7, 14, 21, 28, 35, 42, 49, 56⟩

/-- The first octonion basis unit `(1,0,0,0,0,0,0,0)`. -/
def octE0 : Octo GF := ⟨1, 0, 0, 0, 0, 0, 0, 0⟩

/-- The basis unit `e1`. -/
def octE1 : Octo GF := ⟨0, 1, 0, 0, 0, 0, 0, 0⟩

/-- The basis unit `e2`. -/
def octE2 : Octo GF := ⟨0, 0, 1, 0, 0, 0, 0, 0⟩

/-- The basis unit `e4`. -/
def octE4 : Octo GF := ⟨0, 0, 0, 0, 1, 0, 0, 0⟩

/-- A query opening step 0 with a value distinct from the public `z0` below,
yet satisfying the transition constraint (its `z_next` is the honest
successor of its `z_current`). -/
def cexQuery : Stark.TraceQuery GF :=
  { step := 0, zCurrent := Octo.zero, zNext := Octo.zero, merkleAuthPath := [] }

/-- Public inputs whose `z0` differs from the opened step-0 value of
`cexQuery`. -/
def pubC2 : Stark.PublicInputs GF :=
  { z0 := octE0, c := Octo.zero, zT := octE0, tIterations := 5 }

/-- A proof carrying `cexQuery` with the low-degree flag set. -/
def proofC2 : Stark.StarkProof GF :=
  { traceMerkleRoot := Stark.mockRoot, queriedRows := [cexQuery], friProofValid := true }

/-- Public inputs with `T = 1` over the zero trace. -/
def pubW1 : Stark.PublicInputs GF :=
  { z0 := Octo.zero, c := Octo.zero, zT := Octo.zero, tIterations := 1 }

/-- Public inputs with `T = 1` over the constant-`e0` trace. -/
def pubW2 : Stark.PublicInputs GF :=
  { z0 := octE0, c := Octo.zero, zT := octE0, tIterations := 1 }

/-- Public inputs with `T = 0`. -/
def pubT0 : Stark.PublicInputs GF :=
  { z0 := Octo.zero, c := Octo.zero, zT := Octo.zero, tIterations := 0 }

/-- The constant zero trace of length 2: a valid trace for `c = 0`. -/
def trW1 : List (Octo GF) := [Octo.zero, Octo.zero]

/-- The constant-`e0` trace of length 2: a valid trace for `c = 0`. -/
def trW2 : List (Octo GF) := [octE0, octE0]

/-! ## Basic algebra lemmas -/

theorem Octo.sub_self {R : Type} [CommRing R] (a : Octo R) : Octo.sub a a = Octo.zero := by
  simp [Octo.sub, Octo.zero]

theorem Octo.isZero_iff {R : Type} [CommRing R] [DecidableEq R] (a : Octo R) :
    a.isZero = true ↔ a = Octo.zero := by
  cases a
  simp [Octo.isZero, Octo.zero, Octo.mk.injEq, and_assoc]

/-! ## Lemmas on the Goldilocks trace generator -/

theorem runVdfGrind_length (seed c : Octo GF) (t : ℕ) :
    (runVdfGrind seed c t).length = t + 1 := by
  induction t generalizing seed with
  | zero => rfl
  | succ n ih => simp [runVdfGrind, ih]

theorem runVdfGrind_getD_zero (seed c : Octo GF) (t : ℕ) :
    (runVdfGrind seed c t).getD 0 Octo.zero = seed := by
  cases t <;> rfl

theorem runVdfGrind_getD_succ (seed c : Octo GF) (t i : ℕ) (h : i < t) :
    (runVdfGrind seed c t).getD (i + 1) Octo.zero =
      glStep c ((runVdfGrind seed c t).getD i Octo.zero) := by
  induction t generalizing seed i with
  | zero => exact absurd h (Nat.not_lt_zero i)
  | succ n ih =>
    cases i with
    | zero =>
      simp only [runVdfGrind, List.getD_cons_succ, List.getD_cons_zero]
      exact runVdfGrind_getD_zero (glStep c seed) c n
    | succ j =>
      have hj : j < n := Nat.lt_of_succ_lt_succ h
      simp only [runVdfGrind, List.getD_cons_succ]
      exact ih (glStep c seed) j hj

theorem glTransitionConstraint_step (z c : Octo GF) :
    glTransitionConstraint z (glStep c z) c = Octo.zero :=
  Octo.sub_self _

/-! ## Lemmas on the modelled evaluator and the `stark.rs` prover/verifier -/

namespace Stark

variable {R : Type} [CommRing R] [DecidableEq R]

theorem evalTrace_length (k c z : Octo R) (t : ℕ) :
    (evalTrace k c z t).length = t + 1 := by
  induction t generalizing z with
  | zero => rfl
  | succ n ih => simp [evalTrace, ih]

theorem evalTrace_getD_zero (k c z : Octo R) (t : ℕ) :
    (evalTrace k c z t).getD 0 Octo.zero = z := by
  cases t <;> rfl

theorem evalTrace_getD_succ (k c z : Octo R) (t i : ℕ) (h : i < t) :
    (evalTrace k c z t).getD (i + 1) Octo.zero =
      expectedNext k c ((evalTrace k c z t).getD i Octo.zero) := by
  induction t generalizing z i with
  | zero => exact absurd h (Nat.not_lt_zero i)
  | succ n ih =>
    cases i with
    | zero =>
      simp only [evalTrace, List.getD_cons_succ, List.getD_cons_zero]
      exact evalTrace_getD_zero k c (expectedNext k c z) n
    | succ j =>
      have hj : j < n := Nat.lt_of_succ_lt_succ h
      simp only [evalTrace, List.getD_cons_succ]
      exact ih (expectedNext k c z) j hj

theorem transitionConstraint_step (k c z : Octo R) :
    transitionConstraint k z (expectedNext k c z) c = Octo.zero :=
  Octo.sub_self _

theorem evalTrace_constraint_zero (k c z : Octo R) (t i : ℕ) (h : i < t) :
    transitionConstraint k ((evalTrace k c z t).getD i Octo.zero)
      ((evalTrace k c z t).getD (i + 1) Octo.zero) c = Octo.zero := by
  rw [evalTrace_getD_succ k c z t i h]
  exact transitionConstraint_step k c _

/-- The prover's per-step self-check passes on every honestly evaluated
trace. -/
theorem evalTrace_selfcheck (k c z : Octo R) (t : ℕ) :
    (List.range t).all (fun i =>
      (transitionConstraint k ((evalTrace k c z t).getD i Octo.zero)
        ((evalTrace k c z t).getD (i + 1) Octo.zero) c).isZero) = true := by
  rw [List.all_eq_true]
  intro i hi
  rw [List.mem_range] at hi
  rw [Octo.isZero_iff]
  exact evalTrace_constraint_zero k c z t i hi

/-- When `t` is positive or no queries are requested, the sampling loop
succeeds; its step indices follow the pure schedule `stepSeq`, and every
query opens the trace at its step and its successor. -/
theorem sampleQueries_spec (trace : List (Octo R)) (t p n : ℕ) (h : 0 < t ∨ n = 0) :
    ∃ qs, sampleQueries trace t p n = some qs ∧
      qs.map (fun q => q.step) = stepSeq t p n ∧
      ∀ q ∈ qs, q.step < t ∧ q.zCurrent = trace.getD q.step Octo.zero ∧
        q.zNext = trace.getD (q.step + 1) Octo.zero := by
  rcases h with ht | hn
  · induction n generalizing p with
    | zero => exact ⟨[], rfl, rfl, by simp⟩
    | succ m ih =>
      obtain ⟨qs, hqs, hmap, hmem⟩ := ih (lcgNext p)
      refine ⟨{ step := lcgNext p % t, zCurrent := trace.getD (lcgNext p % t) Octo.zero,
                zNext := trace.getD (lcgNext p % t + 1) Octo.zero,
                merkleAuthPath := List.replicate 5 mockPathNode } :: qs, ?_, ?_, ?_⟩
      · simp only [sampleQueries, if_neg (Nat.pos_iff_ne_zero.mp ht), hqs]
      · simp [stepSeq, hmap]
      · intro q hq
        rcases List.mem_cons.mp hq with hq | hq
        · subst hq
          exact ⟨Nat.mod_lt _ ht, rfl, rfl⟩
        · exact hmem q hq
  · subst hn
    exact ⟨[], rfl, rfl, by simp⟩

/-- Destructuring a successful run of the prover. -/
theorem prove_eq_some_elim (k : Octo R) (trace : List (Octo R)) (pubInputs : PublicInputs R)
    (n : ℕ) (pr : StarkProof R) (h : prove k trace pubInputs n = some pr) :
    trace.length = pubInputs.tIterations + 1 ∧
    (List.range pubInputs.tIterations).all (fun i =>
      (transitionConstraint k (trace.getD i Octo.zero) (trace.getD (i + 1) Octo.zero)
        pubInputs.c).isZero) = true ∧
    sampleQueries trace pubInputs.tIterations prngSeed n = some pr.queriedRows ∧
    pr.friProofValid = true := by
  unfold prove at h
  by_cases hl : trace.length = pubInputs.tIterations + 1
  · rw [if_pos hl] at h
    by_cases hv : (List.range pubInputs.tIterations).all (fun i =>
        (transitionConstraint k (trace.getD i Octo.zero) (trace.getD (i + 1) Octo.zero)
          pubInputs.c).isZero) = true
    · rw [if_pos hv] at h
      cases hs : sampleQueries trace pubInputs.tIterations prngSeed n with
      | none => rw [hs] at h; exact absurd h (by simp)
      | some qs =>
        rw [hs] at h
        injection h with h2
        subst h2
        exact ⟨hl, hv, rfl, rfl⟩
    · rw [if_neg hv] at h
      exact absurd h (by simp)
  · rw [if_neg hl] at h
    exact absurd h (by simp)

/-- The verifier computed as a single boolean conjunction. -/
theorem verify_eq_all_and_fri (k : Octo R) (pr : StarkProof R) (pubInputs : PublicInputs R) :
    verify k pr pubInputs = ((pr.queriedRows.all fun q =>
      (transitionConstraint k q.zCurrent q.zNext pubInputs.c).isZero) && pr.friProofValid) := by
  unfold verify
  cases hall : pr.queriedRows.all (fun q =>
      (transitionConstraint k q.zCurrent q.zNext pubInputs.c).isZero) <;>
    cases hf : pr.friProofValid <;> simp

/-- The accepting condition of the verifier, as a proposition. -/
theorem verify_iff (k : Octo R) (pr : StarkProof R) (pubInputs : PublicInputs R) :
    verify k pr pubInputs = true ↔
      ((∀ q ∈ pr.queriedRows,
          transitionConstraint k q.zCurrent q.zNext pubInputs.c = Octo.zero) ∧
        pr.friProofValid = true) := by
  rw [verify_eq_all_and_fri]
  simp [List.all_eq_true, Octo.isZero_iff]

/-- A successful sampling run needs a positive `t` or zero queries. -/
theorem sampleQueries_eq_some_inv (trace : List (Octo R)) (t p n : ℕ)
    (qs : List (TraceQuery R)) (h : sampleQueries trace t p n = some qs) :
    0 < t ∨ n = 0 := by
  cases n with
  | zero => exact Or.inr rfl
  | succ m =>
    rcases Nat.eq_zero_or_pos t with h0 | hp
    · subst h0
      simp [sampleQueries] at h
    · exact Or.inl hp

/-! ## Claim theorems on the prover/verifier -/

/-- C3: the verifier rejects as soon as one queried row violates the
transition constraint or the low-degree flag is unset, and accepts exactly
when every queried row satisfies the constraint and the flag is set. -/
theorem verify_accept_iff (k : Octo R) (pr : StarkProof R) (pubInputs : PublicInputs R) :
    verify k pr pubInputs = true ↔
      ((∀ q ∈ pr.queriedRows,
          transitionConstraint k q.zCurrent q.zNext pubInputs.c = Octo.zero) ∧
        pr.friProofValid = true) :=
  verify_iff k pr pubInputs

/-- C8: the prover fails fast: whenever `prove` returns a proof, the trace
length equals `T + 1` and every step of the trace satisfies the transition
constraint; on any violation it aborts instead of returning. -/
theorem prove_requires_valid_trace (k : Octo R) (trace : List (Octo R))
    (pubInputs : PublicInputs R) (n : ℕ)
    (h : (prove k trace pubInputs n).isSome = true) :
    trace.length = pubInputs.tIterations + 1 ∧
    ∀ i, i < pubInputs.tIterations →
      transitionConstraint k (trace.getD i Octo.zero) (trace.getD (i + 1) Octo.zero)
        pubInputs.c = Octo.zero := by
  obtain ⟨pr, hpr⟩ := Option.isSome_iff_exists.mp h
  obtain ⟨hl, hv, -, -⟩ := prove_eq_some_elim k trace pubInputs n pr hpr
  refine ⟨hl, fun i hi => ?_⟩
  rw [List.all_eq_true] at hv
  exact (Octo.isZero_iff _).mp (hv i (List.mem_range.mpr hi))

/-- C9: the prover's query indices come from a fixed internal counter, not a
transcript: two successful runs with the same `T` and query count sample the
identical index sequence, whatever the traces, round constants and remaining
public inputs are, and every index lies in `[0, T)`. -/
theorem prove_query_indices_independent (k1 k2 : Octo R) (tr1 tr2 : List (Octo R))
    (pub1 pub2 : PublicInputs R) (n : ℕ)
    (h1 : (prove k1 tr1 pub1 n).isSome = true)
    (h2 : (prove k2 tr2 pub2 n).isSome = true)
    (ht : pub1.tIterations = pub2.tIterations) :
    proofSteps (prove k1 tr1 pub1 n) = proofSteps (prove k2 tr2 pub2 n) ∧
    ∀ s ∈ proofSteps (prove k1 tr1 pub1 n), s < pub1.tIterations := by
  obtain ⟨p1, hp1⟩ := Option.isSome_iff_exists.mp h1
  obtain ⟨p2, hp2⟩ := Option.isSome_iff_exists.mp h2
  obtain ⟨-, -, hs1, -⟩ := prove_eq_some_elim k1 tr1 pub1 n p1 hp1
  obtain ⟨-, -, hs2, -⟩ := prove_eq_some_elim k2 tr2 pub2 n p2 hp2
  obtain ⟨qs1, hq1, hm1, hmem1⟩ :=
    sampleQueries_spec tr1 pub1.tIterations prngSeed n
      (sampleQueries_eq_some_inv tr1 pub1.tIterations prngSeed n p1.queriedRows hs1)
  obtain ⟨qs2, hq2, hm2, hmem2⟩ :=
    sampleQueries_spec tr2 pub2.tIterations prngSeed n
      (sampleQueries_eq_some_inv tr2 pub2.tIterations prngSeed n p2.queriedRows hs2)
  rw [hq1] at hs1
  rw [hq2] at hs2
  injection hs1 with he1
  injection hs2 with he2
  subst he1
  subst he2
  constructor
  · rw [hp1, hp2]
    simp only [proofSteps]
    rw [hm1, hm2, ht]
  · rw [hp1]
    simp only [proofSteps]
    intro s hs
    rw [List.mem_map] at hs
    obtain ⟨q, hqm, rfl⟩ := hs
    exact (hmem1 q hqm).1

/-- C10: with a length-1 trace, `T = 0` and at least one query, the prover
hits the remainder-by-zero (`prng % t` with `t = 0`) and aborts. -/
theorem prove_panics_when_T_zero (k : Octo R) (trace : List (Octo R))
    (pubInputs : PublicInputs R) (n : ℕ)
    (hlen : trace.length = 1) (hT : pubInputs.tIterations = 0) (hn : 1 ≤ n) :
    prove k trace pubInputs n = none := by
  cases n with
  | zero => exact absurd hn (by omega)
  | succ m => simp [prove, hT, hlen, sampleQueries]

/-- C1 (amended): completeness holds whenever the prover does not hit the
`T = 0` remainder-by-zero, i.e. for `T ≥ 1` or zero queries: proving the
honestly evaluated trace yields a proof the verifier accepts. -/
theorem completeness_for_positive_T (k z0 c : Octo R) (t n : ℕ) (h : 1 ≤ t ∨ n = 0) :
    (prove k (evalTrace k c z0 t) (honestPub k c z0 t) n).map
      (fun pr => verify k pr (honestPub k c z0 t)) = some true := by
  have hlen : (evalTrace k c z0 t).length = t + 1 := evalTrace_length k c z0 t
  have hself := evalTrace_selfcheck k c z0 t
  have hd : 0 < t ∨ n = 0 := by
    rcases h with h | h
    · exact Or.inl h
    · exact Or.inr h
  obtain ⟨qs, hq, hmap, hmem⟩ := sampleQueries_spec (evalTrace k c z0 t) t prngSeed n hd
  have hprove : prove k (evalTrace k c z0 t) (honestPub k c z0 t) n =
      some { traceMerkleRoot := mockRoot, queriedRows := qs, friProofValid := true } := by
    unfold prove
    dsimp only [honestPub]
    rw [if_pos hlen, if_pos hself, hq]
  rw [hprove, Option.map_some']
  have hv : verify k { traceMerkleRoot := mockRoot, queriedRows := qs, friProofValid := true }
      (honestPub k c z0 t) = true := by
    rw [verify_iff]
    refine ⟨?_, rfl⟩
    intro q hqm
    obtain ⟨hlt, hcur, hnext⟩ := hmem q hqm
    rw [hcur, hnext]
    exact evalTrace_constraint_zero k c z0 t q.step hlt
  rw [hv]

end Stark

/-! ## Claim theorems on the Goldilocks VDF of `stark_vdf.rs` and the algebra -/

/-- C4: every adjacent pair of rows of the honestly evaluated trace
satisfies the AIR transition constraint. -/
theorem grind_trace_satisfies_air (seed c : Octo GF) (t i : ℕ) (h : i < t) :
    glTransitionConstraint ((runVdfGrind seed c t).getD i Octo.zero)
      ((runVdfGrind seed c t).getD (i + 1) Octo.zero) c = Octo.zero := by
  rw [runVdfGrind_getD_succ seed c t i h]
  exact glTransitionConstraint_step _ c

/-- Witness for C4 at `seed = e0`, `c = e1`, `T = 2`, `i = 0`. -/
theorem grind_trace_satisfies_air_witness :
    (0 : ℕ) < 2 ∧
    glTransitionConstraint ((runVdfGrind octE0 octE1 2).getD 0 Octo.zero)
      ((runVdfGrind octE0 octE1 2).getD (0 + 1) Octo.zero) octE1 = Octo.zero :=
  ⟨by decide, grind_trace_satisfies_air octE0 octE1 2 0 (by decide)⟩

/-- C5 (counterexample): the hash layer of `stark_vdf.rs` has no diffusion
layer: no choice of round constants makes it agree with the spec's
`out_i = y_i + s + k_i` oracle on all inputs. -/
theorem glH_lacks_diffusion_layer :
    ¬ ∃ k : Octo GF, ∀ x : Octo GF, glH x = Stark.hOracle k x := by
  rintro ⟨k, hk⟩
  have h0 := congrArg Octo.x1 (hk Octo.zero)
  have h1 := congrArg Octo.x1 (hk octE0)
  simp [glH, glPow7, Stark.hOracle, Octo.zero, octE0] at h0 h1
  rw [← h0, add_zero] at h1
  exact absurd h1 (by decide)

/-- C5 (amended): the oracle of `stark_vdf.rs` applies only the nonlinear
layer, the seventh power on each coordinate; there is no cross-coordinate
sum and no round constants. -/
theorem glH_is_pure_seventh_power (x : Octo GF) :
    glH x = ⟨x.x0 ^ 7, x.x1 ^ 7, x.x2 ^ 7, x.x3 ^ 7,
             x.x4 ^ 7, x.x5 ^ 7, x.x6 ^ 7, x.x7 ^ 7⟩ := by
  simp only [glH, glPow7, Octo.mk.injEq]
  refine ⟨?_, ?_, ?_, ?_, ?_, ?_, ?_, ?_⟩ <;> ring

/-- C6: the evaluator's trace has length `T + 1`, starts at the seed, and at
`T = 0` is the single-element trace `[z0]`. -/
theorem grind_trace_length_and_head (seed c : Octo GF) (t : ℕ) :
    (runVdfGrind seed c t).length = t + 1 ∧
    (runVdfGrind seed c t).getD 0 Octo.zero = seed ∧
    runVdfGrind seed c 0 = [seed] :=
  ⟨runVdfGrind_length seed c t, runVdfGrind_getD_zero seed c t, rfl⟩

/-- C7: octonion multiplication realises exactly the spec's
Cayley-Dickson/Fano-plane sign table over any scalar ring, and over the
Goldilocks field it is non-commutative and non-associative. -/
theorem octonion_mul_table_and_nonassociativity :
    (∀ (R : Type) [CommRing R] (a b : Octo R),
      Octo.mul a b = ⟨
        a.x0*b.x0 - a.x1*b.x1 - a.x2*b.x2 - a.x3*b.x3
          - a.x4*b.x4 - a.x5*b.x5 - a.x6*b.x6 - a.x7*b.x7,
        a.x0*b.x1 + a.x1*b.x0 + a.x2*b.x3 - a.x3*b.x2
          + a.x4*b.x5 - a.x5*b.x4 - a.x6*b.x7 + a.x7*b.x6,
        a.x0*b.x2 - a.x1*b.x3 + a.x2*b.x0 + a.x3*b.x1
          + a.x4*b.x6 + a.x5*b.x7 - a.x6*b.x4 - a.x7*b.x5,
        a.x0*b.x3 + a.x1*b.x2 - a.x2*b.x1 + a.x3*b.x0
          + a.x4*b.x7 - a.x5*b.x6 + a.x6*b.x5 - a.x7*b.x4,
        a.x0*b.x4 - a.x1*b.x5 - a.x2*b.x6 - a.x3*b.x7
          + a.x4*b.x0 + a.x5*b.x1 + a.x6*b.x2 + a.x7*b.x3,
        a.x0*b.x5 + a.x1*b.x4 - a.x2*b.x7 + a.x3*b.x6
          - a.x4*b.x1 + a.x5*b.x0 - a.x6*b.x3 + a.x7*b.x2,
        a.x0*b.x6 + a.x1*b.x7 + a.x2*b.x4 - a.x3*b.x5
          - a.x4*b.x2 + a.x5*b.x3 + a.x6*b.x0 - a.x7*b.x1,
        a.x0*b.x7 - a.x1*b.x6 + a.x2*b.x5 + a.x3*b.x4
          - a.x4*b.x3 - a.x5*b.x2 + a.x6*b.x1 + a.x7*b.x0⟩) ∧
    (∃ a b : Octo GF, Octo.mul a b ≠ Octo.mul b a) ∧
    (∃ x y z : Octo GF, Octo.mul (Octo.mul x y) z ≠ Octo.mul x (Octo.mul y z)) := by
  refine ⟨?_, ⟨octE1, octE2, by decide⟩, ⟨octE1, octE2, octE4, by decide⟩⟩
  intro R instR a b
  rfl

/-- C2 (counterexample): the verifier accepts a proof whose opened step-0
value differs from the public `z0` — the boundary check is a stub. -/
theorem verify_accepts_boundary_mismatch :
    Stark.verify kGold proofC2 pubC2 = true ∧
    cexQuery ∈ proofC2.queriedRows ∧ cexQuery.step = 0 ∧
    cexQuery.zCurrent ≠ pubC2.z0 := by decide

/-- C2 (amended): the verifier's boundary check is the constant-true stub:
its verdict is entirely independent of the public `z0` and `zT`. -/
theorem verify_ignores_boundary_values {R : Type} [CommRing R] [DecidableEq R]
    (k : Octo R) (pr : Stark.StarkProof R) (a b a2 b2 c : Octo R) (t : ℕ) :
    Stark.verify k pr ⟨a, c, b, t⟩ = Stark.verify k pr ⟨a2, c, b2, t⟩ := rfl

/-- C1 (counterexample): at `T = 0` with one query the prover aborts on the
honestly evaluated trace (remainder by `t = 0`), so no proof exists to
verify — completeness fails for that `T`, λ combination. -/
theorem completeness_fails_at_T_zero :
    Stark.prove kGold (Stark.evalTrace kGold Octo.zero Octo.zero 0)
      (Stark.honestPub kGold Octo.zero Octo.zero 0) 1 = none ∧
    (Stark.prove kGold (Stark.evalTrace kGold Octo.zero Octo.zero 0)
      (Stark.honestPub kGold Octo.zero Octo.zero 0) 1).map
        (fun pr => Stark.verify kGold pr (Stark.honestPub kGold Octo.zero Octo.zero 0)) ≠
      some true := by decide

/-- Witness for the amended C1 at `z0 = e1`, `c = e0`, `T = 1`, λ `= 2`. -/
theorem completeness_for_positive_T_witness :
    ((1 : ℕ) ≤ 1 ∨ (2 : ℕ) = 0) ∧
    (Stark.prove kGold (Stark.evalTrace kGold octE0 octE1 1)
      (Stark.honestPub kGold octE0 octE1 1) 2).map
        (fun pr => Stark.verify kGold pr (Stark.honestPub kGold octE0 octE1 1)) = some true :=
  ⟨Or.inl (by decide), Stark.completeness_for_positive_T kGold octE1 octE0 1 2 (Or.inl (by decide))⟩

/-- Witness for C8 on the valid zero trace with `T = 1` and one query. -/
theorem prove_requires_valid_trace_witness :
    trW1.length = pubW1.tIterations + 1 ∧
    ∀ i, i < pubW1.tIterations →
      Stark.transitionConstraint kGold (trW1.getD i Octo.zero) (trW1.getD (i + 1) Octo.zero)
        pubW1.c = Octo.zero :=
  Stark.prove_requires_valid_trace kGold trW1 pubW1 1 (by decide)

/-- Witness for C9 on two distinct valid traces with `T = 1`, two queries. -/
theorem prove_query_indices_independent_witness :
    Stark.proofSteps (Stark.prove kGold trW1 pubW1 2) =
      Stark.proofSteps (Stark.prove kGold trW2 pubW2 2) ∧
    ∀ s ∈ Stark.proofSteps (Stark.prove kGold trW1 pubW1 2), s < pubW1.tIterations :=
  Stark.prove_query_indices_independent kGold kGold trW1 trW2 pubW1 pubW2 2
    (by decide) (by decide) rfl

/-- Witness for C10 on the singleton trace with `T = 0` and one query. -/
theorem prove_panics_when_T_zero_witness :
    Stark.prove kGold [Octo.zero] pubT0 1 = none :=
  Stark.prove_panics_when_T_zero kGold [Octo.zero] pubT0 1 rfl rfl (by decide)

end Crypto
